import Mathlib

/-!
Verification of the anniversary-matching and resilient-delivery core of the
birthday-backend service: a shallow embedding of
`src/users/users.service.ts` (`findUsersWithBirthdayToday`) and
`src/birthday-worker/birthday-worker.service.ts` (`checkBirthdays`,
`sendBirthdayMessageWithRetry`), with theorems about the candidate window,
the timezone match step, the retry/backoff loop and the batch orchestrator.
-/

/-! ## Calendar arithmetic

JavaScript `Date` getters (`getMonth`, `getDate`) read the stored epoch
instant in a timezone; we model a timezone as a fixed offset in minutes east
of UTC (offset 0 gives the UTC getters, which is also what MongoDB's
`$month` / `$dayOfMonth` compute).  `civilFromDays` is the standard
proleptic-Gregorian conversion from a day number (days since 1970-01-01) to
(year, month, day). -/

/-- Convert a day count since the epoch 1970-01-01 to a Gregorian civil date
(year, month in 1..12, day in 1..31). -/
def civilFromDays (z : Int) : Int × Nat × Nat :=
  let zShift : Int := z + 719468
  let era : Int := zShift.fdiv 146097
  let doe : Nat := (zShift - era * 146097).toNat
  let yoe : Nat := (doe - doe / 1460 + doe / 36524 - doe / 146096) / 365
  let doy : Nat := doe - (365 * yoe + yoe / 4 - yoe / 100)
  let mp : Nat := (5 * doy + 2) / 153
  let d : Nat := doy - (153 * mp + 2) / 5 + 1
  let m : Nat := if mp < 10 then mp + 3 else mp - 9
  let y : Int := (yoe : Int) + era * 400 + (if m ≤ 2 then 1 else 0)
  (y, m, d)

/-- The pair `(getMonth() + 1, getDate())` of a JS `Date` holding the epoch
instant `tMs` (milliseconds), read in a timezone that is a fixed offset of
`offMin` minutes east of UTC.  With `offMin = 0` this is also MongoDB's
`($month, $dayOfMonth)` of the same instant. -/
def jsMonthDay (tMs offMin : Int) : Nat × Nat :=
  let c := civilFromDays ((tMs + offMin * 60000).fdiv 86400000)
  (c.2.1, c.2.2)

/-! ## Data model

A stored member record (`User` schema): the birthday is persisted as a full
`Date`; this core only ever reads its month and day.  The aggregation
pipeline in `findUsersWithBirthdayToday` adds `birthdayMonth := $month`
and `birthdayDay := $dayOfMonth` (both UTC), producing the
`BirthdayAggregationResult` shape. -/

structure User where
  id : String
  name : String
  email : String
  /-- the stored `birthday : Date`, as epoch milliseconds -/
  birthdayMs : Int
  timezone : String
deriving Repr, DecidableEq

/-- The `BirthdayAggregationResult` shape produced by the `$addFields`
stage of the aggregation pipeline. -/
structure AggUser where
  id : String
  name : String
  email : String
  birthdayMs : Int
  timezone : String
  birthdayMonth : Nat
  birthdayDay : Nat
deriving Repr, DecidableEq

/-- The `$addFields` stage: `birthdayMonth := { $month: birthday }` and
`birthdayDay := { $dayOfMonth: birthday }`, both computed in UTC (MongoDB's
default when no timezone argument is given). -/
def addBirthdayFields (u : User) : AggUser :=
  { id := u.id, name := u.name, email := u.email, birthdayMs := u.birthdayMs,
    timezone := u.timezone,
    birthdayMonth := (jsMonthDay u.birthdayMs 0).1,
    birthdayDay := (jsMonthDay u.birthdayMs 0).2 }

/-! ## Timezone localization

The final filter evaluates
`new Date(now.toLocaleString('en-US', { timeZone: user.timezone }))` and
reads back `getMonth() + 1` and `getDate()`: the (month, day) of the
instant `now` observed in the member's own IANA timezone.  The runtime's
timezone database is external to the program, so the localizer is a
parameter of the embedding: `none` models the `RangeError` thrown by
`toLocaleString` for an identifier the runtime cannot resolve. -/

/-- A localizer maps (instant in epoch ms, IANA timezone identifier) to the
local (month, day), or `none` when the identifier cannot be resolved. -/
abbrev Localizer := Int → String → Option (Nat × Nat)

/-- The `users.filter(...)` step of `findUsersWithBirthdayToday`, writing
`localMD` for the already-instantiated localizer at the cycle's instant.
Returns the matched members in order, together with the ids of members
whose localization threw (for which the `catch` block logged
`Error processing birthday for user ...` and returned `false`). -/
def birthdayFilter (localMD : String → Option (Nat × Nat)) :
    List AggUser → List AggUser × List String
  | [] => ([], [])
  | u :: rest =>
    let done := birthdayFilter localMD rest
    match localMD u.timezone with
    | some md =>
      (if md.1 = u.birthdayMonth ∧ md.2 = u.birthdayDay then u :: done.1 else done.1,
       done.2)
    | none => (done.1, u.id :: done.2)

/-! ## Candidate window and the full match step -/

/-- The three (month, day) pairs the `$match` stage's `$or` admits, in the
order they appear in the source: today, yesterday (`now.getTime() -
86400000`), tomorrow (`now.getTime() + 86400000`).  The source reads them
with `getMonth() + 1` / `getDate()`, i.e. in the server's local timezone
`serverOffMin`. -/
def candidateWindow (nowMs serverOffMin : Int) : List (Nat × Nat) :=
  [jsMonthDay nowMs serverOffMin,
   jsMonthDay (nowMs - 86400000) serverOffMin,
   jsMonthDay (nowMs + 86400000) serverOffMin]

/-- The window as the spec words it: the (month, day) pairs of the instant
minus 24 hours, the instant itself, and the instant plus 24 hours, each
computed in UTC. -/
def windowSpecUTC (nowMs : Int) : List (Nat × Nat) :=
  [jsMonthDay (nowMs - 86400000) 0, jsMonthDay nowMs 0,
   jsMonthDay (nowMs + 86400000) 0]

/-- The candidate set after the aggregation pipeline (`$addFields` then the
`$match` pre-filter): members whose UTC anniversary pair lies in the
candidate window. -/
def aggregationCandidates (nowMs serverOffMin : Int) (users : List User) :
    List AggUser :=
  (users.map addBirthdayFields).filter fun a =>
    decide ((a.birthdayMonth, a.birthdayDay) ∈ candidateWindow nowMs serverOffMin)

/-- The function `findUsersWithBirthdayToday`, written monolithically after the source:
one instant `nowMs` is captured at entry (`const now = new Date()`); the
`$match` stage tests the `$or` of the three (month, day) equalities derived
from that instant, and the final filter localizes the same instant with
each candidate's own timezone. -/
def findUsersWithBirthdayToday (loc : Localizer) (nowMs serverOffMin : Int)
    (users : List User) : List AggUser × List String :=
  birthdayFilter (loc nowMs)
    ((users.map addBirthdayFields).filter fun a =>
      decide ((a.birthdayMonth = (jsMonthDay nowMs serverOffMin).1 ∧
               a.birthdayDay = (jsMonthDay nowMs serverOffMin).2) ∨
              (a.birthdayMonth = (jsMonthDay (nowMs - 86400000) serverOffMin).1 ∧
               a.birthdayDay = (jsMonthDay (nowMs - 86400000) serverOffMin).2) ∨
              (a.birthdayMonth = (jsMonthDay (nowMs + 86400000) serverOffMin).1 ∧
               a.birthdayDay = (jsMonthDay (nowMs + 86400000) serverOffMin).2)))

/-! ## Retrying sender

`sendBirthdayMessageWithRetry(user, maxRetries = 5, baseDelay = 1000)` is a
`while (retries <= maxRetries)` loop: each iteration makes one delivery
attempt; on failure `retries` is incremented and, once `retries >
maxRetries`, the last error is re-thrown.  The fallible delivery call is a
parameter `attemptResult : Nat → Except String Unit` giving the outcome of
the i-th attempt (0-indexed).  The loop can only be left through `return`
or `throw`, so we recurse on the number of attempts still allowed;
`remaining = 0` is unreachable from the entry point. -/

/-- Default `maxRetries` from the source signature. -/
def defaultMaxRetries : Nat := 5

/-- Default `baseDelay` from the source signature. -/
def defaultBaseDelay : Nat := 1000

/-- The retry loop: `k` attempts already made, `remaining` attempts still
allowed.  Returns the total number of attempts made and the terminal
outcome (`Except.error` = the re-thrown last error). -/
def retryRun (attemptResult : Nat → Except String Unit) :
    Nat → Nat → Nat × Except String Unit
  | k, 0 => (k, Except.ok ())
  | k, remaining + 1 =>
    match attemptResult k with
    | Except.ok _ => (k + 1, Except.ok ())
    | Except.error e =>
      if remaining = 0 then (k + 1, Except.error e)
      else retryRun attemptResult (k + 1) remaining

/-- The function `sendBirthdayMessageWithRetry`: at most `maxRetries + 1` attempts. -/
def sendBirthdayMessageWithRetry (attemptResult : Nat → Except String Unit)
    (maxRetries : Nat) : Nat × Except String Unit :=
  retryRun attemptResult 0 (maxRetries + 1)

/-- The backoff delay computed before a retry, from the source line
`Math.floor(baseDelay * Math.pow(2, retries - 1) * (0.5 + Math.random() * 0.5))`,
where `retries` counts the failures so far (so the retry being scheduled is
attempt number `retries + 1`) and `rand` is the `Math.random()` draw,
modelled as a rational in `[0, 1)`. -/
def backoffDelay (baseDelay : ℚ) (retries : Nat) (rand : ℚ) : Int :=
  Int.floor (baseDelay * 2 ^ (retries - 1) * (1/2 + rand * (1/2)))

/-! ## Batch delivery orchestrator

`checkBirthdays` fetches the matched members, fans
`processBirthdayMessage` out over them with `Promise.allSettled`, and logs
`matched` / `successful` / `failed` counts; its outer `try/catch` turns any
exception raised before the fan-out into a logged cycle-level failure.
When the matched list is empty it logs and returns early, having processed
and failed nothing (the zero summary). -/

structure CycleSummary where
  matched : Nat
  successful : Nat
  failed : Nat
deriving Repr, DecidableEq

/-- Observable outcome of one `checkBirthdays` cycle: a completed summary,
or an error caught and logged by the outer `catch`. -/
inductive CycleOutcome where
  | summary : CycleSummary → CycleOutcome
  | cycleError : String → CycleOutcome
deriving Repr, DecidableEq

/-- The function `processBirthdayMessage`: awaits `sendBirthdayMessageWithRetry` and
re-throws its error so `Promise.allSettled` records a rejection. -/
def processBirthdayMessage (attemptResult : Nat → Except String Unit)
    (maxRetries : Nat) : Except String Unit :=
  (sendBirthdayMessageWithRetry attemptResult maxRetries).2

/-- The body of `checkBirthdays` after a successful fetch: early return on
an empty list, else `Promise.allSettled` over the per-member sequences and
the fulfilled/rejected counts. -/
def checkBirthdaysBody (birthdayUsers : List AggUser)
    (attempts : AggUser → Nat → Except String Unit) : CycleSummary :=
  if birthdayUsers.length = 0 then ⟨0, 0, 0⟩
  else
    let settled := birthdayUsers.map fun u =>
      processBirthdayMessage (attempts u) defaultMaxRetries
    { matched := birthdayUsers.length,
      successful := (settled.filter fun r => r.isOk).length,
      failed := (settled.filter fun r => !r.isOk).length }

/-- The function `checkBirthdays`: the fetch (`findUsersWithBirthdayToday`) may reject;
the outer `try/catch` converts that into a logged cycle-level failure, so
the method itself never rejects — the result is always `Except.ok`. -/
def checkBirthdays (fetch : Except String (List AggUser))
    (attempts : AggUser → Nat → Except String Unit) :
    Except String CycleOutcome :=
  match fetch with
  | Except.ok birthdayUsers =>
    Except.ok (CycleOutcome.summary (checkBirthdaysBody birthdayUsers attempts))
  | Except.error e => Except.ok (CycleOutcome.cycleError e)

/-! ## Concrete fixtures used by the witness theorems -/

/-- A localizer fixture: a tiny timezone database for witnesses.  At the
reference instant it sends America/New_York to Jan 15, Pacific/Kiritimati
to Jan 16, and resolves nothing else (in particular not "Not/AZone"). -/
def testLocalize : Localizer := fun _ tz =>
  if tz = "America/New_York" then some (1, 15)
  else if tz = "Pacific/Kiritimati" then some (1, 16)
  else none

/-- Member fixture: anniversary Jan 15 (stored birthday 1990-01-15 UTC). -/
def userAlice : User :=
  ⟨"A", "Alice", "alice@example.com", 632361600000, "America/New_York"⟩

/-- Member fixture with an unresolvable timezone identifier. -/
def userBadZone : User :=
  ⟨"Z", "Zed", "zed@example.com", 632361600000, "Not/AZone"⟩

/-- Aggregated fixtures for orchestrator witnesses. -/
def aggA : AggUser := addBirthdayFields userAlice

def aggB : AggUser :=
  addBirthdayFields ⟨"B", "Bob", "bob@example.com", 632361600000, "America/New_York"⟩

def aggC : AggUser :=
  addBirthdayFields ⟨"C", "Cara", "cara@example.com", 632361600000, "America/New_York"⟩

/-- Delivery fixture: every attempt fails with the same error. -/
def alwaysFail : Nat → Except String Unit := fun _ => Except.error "boom"

/-- Delivery fixture: every attempt succeeds. -/
def alwaysOk : Nat → Except String Unit := fun _ => Except.ok ()

/-- The constant error-message family used with `alwaysFail`. -/
def constBoom : Nat → String := fun _ => "boom"

/-- Per-member delivery fixture: member "B" always fails, others succeed. -/
def attemptsFailB (u : AggUser) : Nat → Except String Unit :=
  if u.id = "B" then alwaysFail else alwaysOk

/-! ## Helper lemmas -/

/-- The matched component of the final filter is an ordinary `List.filter`
by the per-member predicate "the localized (month, day) equals the member's
own stored anniversary (month, day)"; a member whose localization fails is
never matched. -/
theorem birthdayFilter_fst_eq_filter (localMD : String → Option (Nat × Nat))
    (l : List AggUser) :
    (birthdayFilter localMD l).1 = l.filter fun u =>
      decide (localMD u.timezone = some (u.birthdayMonth, u.birthdayDay)) := by
  induction l with
  | nil => rfl
  | cons u rest ih =>
    simp only [birthdayFilter, List.filter_cons]
    cases h : localMD u.timezone with
    | none => simp [h, ih]
    | some md =>
      obtain ⟨m, d⟩ := md
      by_cases hc : m = u.birthdayMonth ∧ d = u.birthdayDay
      · obtain ⟨h1, h2⟩ := hc
        subst h1; subst h2
        simp [h, ih]
      · simp [h, ih, hc]

/-- The error component of the final filter records exactly the ids of the
members whose localization failed, in order. -/
theorem birthdayFilter_snd_eq_errors (localMD : String → Option (Nat × Nat))
    (l : List AggUser) :
    (birthdayFilter localMD l).2 =
      (l.filter fun u => (localMD u.timezone).isNone).map (fun u => u.id) := by
  induction l with
  | nil => rfl
  | cons u rest ih =>
    simp only [birthdayFilter, List.filter_cons]
    cases h : localMD u.timezone <;> simp [h, ih]

/-- The function `findUsersWithBirthdayToday` decomposes into the window pre-filter
followed by the localization filter, both phases taken at the single
instant `nowMs` captured at entry. -/
theorem findUsers_decompose (loc : Localizer) (nowMs serverOffMin : Int)
    (users : List User) :
    findUsersWithBirthdayToday loc nowMs serverOffMin users =
      birthdayFilter (loc nowMs) (aggregationCandidates nowMs serverOffMin users) := by
  unfold findUsersWithBirthdayToday aggregationCandidates
  congr 1
  apply List.filter_congr
  intro a _
  apply decide_eq_decide.mpr
  simp [candidateWindow, Prod.ext_iff]

/-! ## Claim theorems -/

/-- C1: for every reference instant and every candidate in the
window-filtered candidate set, the candidate is in the match set returned
by `findUsersWithBirthdayToday` if and only if localizing the instant to
the candidate's own timezone yields a (month, day) equal to the (month,
day) of the candidate's stored anniversary. -/
theorem mem_match_iff_localized_eq_anniversary
    (loc : Localizer) (nowMs serverOffMin : Int) (users : List User) (u : AggUser)
    (hu : u ∈ aggregationCandidates nowMs serverOffMin users) :
    u ∈ (findUsersWithBirthdayToday loc nowMs serverOffMin users).1 ↔
      loc nowMs u.timezone = some (u.birthdayMonth, u.birthdayDay) := by
  rw [findUsers_decompose, birthdayFilter_fst_eq_filter]
  constructor
  · intro h
    exact of_decide_eq_true (List.mem_filter.mp h).2
  · intro h
    exact List.mem_filter.mpr ⟨hu, decide_eq_true h⟩

/-- C1 witness: Alice (anniversary Jan 15, timezone America/New_York) is a
window candidate at 2023-01-15T23:30:00Z, and the equivalence holds for
her concretely. -/
theorem mem_match_iff_localized_eq_anniversary_witness :
    aggA ∈ aggregationCandidates 1673825400000 0 [userAlice] ∧
    (aggA ∈ (findUsersWithBirthdayToday testLocalize 1673825400000 0 [userAlice]).1 ↔
      testLocalize 1673825400000 aggA.timezone =
        some (aggA.birthdayMonth, aggA.birthdayDay)) :=
  ⟨by decide,
   mem_match_iff_localized_eq_anniversary testLocalize 1673825400000 0
     [userAlice] aggA (by decide)⟩

/-- C2: the source computes the three window pairs with `getMonth()` /
`getDate()`, which read the server's local timezone, not UTC as the inline
comments ("Today in UTC", ...) state.  At the instant 2023-01-15T23:30:00Z
on a server at UTC+01:00 the code window is {Jan 15, Jan 16, Jan 17} and
omits UTC-yesterday Jan 14, while on a UTC server (offset 0) the code
window agrees with the UTC window of the claim. -/
theorem candidateWindow_server_local_vs_utc :
    ((1, 14) ∈ windowSpecUTC 1673825400000 ∧
     (1, 14) ∉ candidateWindow 1673825400000 60) ∧
    List.Perm (candidateWindow 1673825400000 0) (windowSpecUTC 1673825400000) := by
  refine ⟨⟨by decide, by decide⟩, ?_⟩
  decide

/-- C7: a window candidate whose timezone the localizer cannot resolve is
excluded from the match set, its id is recorded as a per-member error, and
the match set is still the full per-member filter of all candidates, so
every other member is processed normally. -/
theorem invalid_timezone_member_isolated
    (loc : Localizer) (nowMs serverOffMin : Int) (users : List User) (u : AggUser)
    (hu : u ∈ aggregationCandidates nowMs serverOffMin users)
    (hbad : loc nowMs u.timezone = none) :
    u ∉ (findUsersWithBirthdayToday loc nowMs serverOffMin users).1 ∧
    u.id ∈ (findUsersWithBirthdayToday loc nowMs serverOffMin users).2 ∧
    (findUsersWithBirthdayToday loc nowMs serverOffMin users).1 =
      (aggregationCandidates nowMs serverOffMin users).filter fun v =>
        decide (loc nowMs v.timezone = some (v.birthdayMonth, v.birthdayDay)) := by
  refine ⟨?_, ?_, ?_⟩
  · intro hmem
    rw [findUsers_decompose, birthdayFilter_fst_eq_filter] at hmem
    have hloc := of_decide_eq_true (List.mem_filter.mp hmem).2
    rw [hbad] at hloc
    exact Option.noConfusion hloc
  · rw [findUsers_decompose, birthdayFilter_snd_eq_errors]
    refine List.mem_map.mpr ⟨u, List.mem_filter.mpr ⟨hu, ?_⟩, rfl⟩
    simp [hbad]
  · rw [findUsers_decompose, birthdayFilter_fst_eq_filter]

/-- C7 witness: the member with timezone "Not/AZone" is a window candidate
at 2023-01-15T23:30:00Z, its localization fails, and the three conclusions
hold for it concretely. -/
theorem invalid_timezone_member_isolated_witness :
    (addBirthdayFields userBadZone ∈
        aggregationCandidates 1673825400000 0 [userBadZone] ∧
     testLocalize 1673825400000 (addBirthdayFields userBadZone).timezone = none) ∧
    (addBirthdayFields userBadZone ∉
        (findUsersWithBirthdayToday testLocalize 1673825400000 0 [userBadZone]).1 ∧
     (addBirthdayFields userBadZone).id ∈
        (findUsersWithBirthdayToday testLocalize 1673825400000 0 [userBadZone]).2 ∧
     (findUsersWithBirthdayToday testLocalize 1673825400000 0 [userBadZone]).1 =
       (aggregationCandidates 1673825400000 0 [userBadZone]).filter fun v =>
         decide (testLocalize 1673825400000 v.timezone =
           some (v.birthdayMonth, v.birthdayDay))) :=
  ⟨⟨by decide, by decide⟩,
   invalid_timezone_member_isolated testLocalize 1673825400000 0 [userBadZone]
     (addBirthdayFields userBadZone) (by decide) (by decide)⟩

/-- C8: on an empty population the match step returns an empty match set
and no errors, and the cycle run returns the zero-valued summary, both
without error. -/
theorem empty_population_zero_results (loc : Localizer)
    (nowMs serverOffMin : Int)
    (attempts : AggUser → Nat → Except String Unit) :
    findUsersWithBirthdayToday loc nowMs serverOffMin [] = ([], []) ∧
    checkBirthdaysBody [] attempts = ⟨0, 0, 0⟩ ∧
    checkBirthdays (Except.ok []) attempts =
      Except.ok (CycleOutcome.summary ⟨0, 0, 0⟩) :=
  ⟨rfl, rfl, rfl⟩

/-- C9: `findUsersWithBirthdayToday` evaluates both phases at the single
instant captured at entry: it equals the window pre-filter at `nowMs`
followed by the localization filter at the same `nowMs`. -/
theorem single_instant_per_cycle (loc : Localizer) (nowMs serverOffMin : Int)
    (users : List User) :
    findUsersWithBirthdayToday loc nowMs serverOffMin users =
      birthdayFilter (loc nowMs) (aggregationCandidates nowMs serverOffMin users) :=
  findUsers_decompose loc nowMs serverOffMin users

/-- When every attempt fails, the retry loop entered with `r + 1` allowed
attempts and `k` attempts already made performs all `r + 1` remaining
attempts and re-throws the error of the last one. -/
theorem retryRun_all_fail (attemptResult : Nat → Except String Unit)
    (errMsg : Nat → String)
    (h : ∀ i, attemptResult i = Except.error (errMsg i)) :
    ∀ r k, retryRun attemptResult k (r + 1) =
      (k + r + 1, Except.error (errMsg (k + r))) := by
  intro r
  induction r with
  | zero =>
    intro k
    simp [retryRun, h k]
  | succ n ih =>
    intro k
    have hstep : retryRun attemptResult k (n + 1 + 1) =
        retryRun attemptResult (k + 1) (n + 1) := by
      simp [retryRun, h k]
    rw [hstep, ih (k + 1)]
    have h1 : k + 1 + n + 1 = k + (n + 1) + 1 := by omega
    have h2 : k + 1 + n = k + (n + 1) := by omega
    rw [h1, h2]

/-- C3: for every non-negative `maxRetries = n`, a delivery call failing on
every attempt is attempted exactly `n + 1` times and the terminal failure
carries the error of the last attempt; the source's default parameters are
`maxRetries = 5` and `baseDelay = 1000`. -/
theorem retry_exhaustion_attempt_count (n : Nat) (errMsg : Nat → String)
    (attemptResult : Nat → Except String Unit)
    (h : ∀ i, attemptResult i = Except.error (errMsg i)) :
    sendBirthdayMessageWithRetry attemptResult n =
      (n + 1, Except.error (errMsg n)) ∧
    defaultMaxRetries = 5 ∧ defaultBaseDelay = 1000 := by
  refine ⟨?_, rfl, rfl⟩
  have hrun := retryRun_all_fail attemptResult errMsg h n 0
  simpa [sendBirthdayMessageWithRetry] using hrun

/-- C3 witness: with `maxRetries = 2` and a delivery call that always
fails, exactly 3 attempts are made and the last error is reported. -/
theorem retry_exhaustion_attempt_count_witness :
    sendBirthdayMessageWithRetry alwaysFail 2 = (3, Except.error (constBoom 2)) ∧
    defaultMaxRetries = 5 ∧ defaultBaseDelay = 1000 :=
  retry_exhaustion_attempt_count 2 constBoom alwaysFail (fun _ => rfl)

/-- C4 counterexample: the waited delay is `Math.floor` of the real-valued
product, so for `baseDelay = 1`, attempt `k = 2` (`retries = 1`) and the
jitter draw `rand = 0` (jitter factor 0.5) the delay is
`floor(1 * 2^0 * 0.5) = 0`, strictly below the claimed lower bound
`baseDelay * 2^(k-2) * 0.5 = 1/2`. -/
theorem backoff_lower_bound_fails_at_base_one :
    ¬ ((1 : ℚ) * 2 ^ (2 - 2) * (1/2) ≤ (backoffDelay 1 (2 - 1) 0 : ℚ)) := by
  have hval : backoffDelay 1 (2 - 1) 0 = 0 := by
    unfold backoffDelay
    rw [Int.floor_eq_zero_iff, Set.mem_Ico]
    norm_num
  rw [hval]
  norm_num

/-- C4 amended: for attempt `k ≥ 2`, positive `baseDelay` and a jitter draw
in [0.5, 1.0) (`rand` in [0, 1)), the waited delay lies in
`[floor(baseDelay * 2^(k-2) * 0.5), baseDelay * 2^(k-2) * 1.0)`; when
`baseDelay = 1000` (the default) the lower endpoint is an integer and the
originally claimed lower bound `baseDelay * 2^(k-2) * 0.5` holds as
stated. -/
theorem backoff_delay_interval (baseDelay : ℚ) (k : Nat) (rand : ℚ)
    (hbase : 0 < baseDelay) (hk : 2 ≤ k) (h0 : 0 ≤ rand) (h1 : rand < 1) :
    Int.floor (baseDelay * 2 ^ (k - 2) * (1/2)) ≤
      backoffDelay baseDelay (k - 1) rand ∧
    (backoffDelay baseDelay (k - 1) rand : ℚ) < baseDelay * 2 ^ (k - 2) * 1 ∧
    (baseDelay = 1000 →
      baseDelay * 2 ^ (k - 2) * (1/2) ≤
        (backoffDelay baseDelay (k - 1) rand : ℚ)) := by
  have hexp : k - 1 - 1 = k - 2 := by omega
  unfold backoffDelay
  rw [hexp]
  have hBpos : (0:ℚ) < baseDelay * 2 ^ (k - 2) :=
    mul_pos hbase (by positivity)
  have hlow : baseDelay * 2 ^ (k - 2) * (1/2) ≤
      baseDelay * 2 ^ (k - 2) * (1/2 + rand * (1/2)) := by nlinarith
  have hhigh : baseDelay * 2 ^ (k - 2) * (1/2 + rand * (1/2)) <
      baseDelay * 2 ^ (k - 2) * 1 := by nlinarith
  refine ⟨Int.floor_mono hlow, lt_of_le_of_lt (Int.floor_le _) hhigh, ?_⟩
  intro hb
  have hint : ((500 * 2 ^ (k - 2) : ℤ) : ℚ) = baseDelay * 2 ^ (k - 2) * (1/2) := by
    rw [hb]; push_cast; ring
  have hfl : (500 * 2 ^ (k - 2) : ℤ) ≤
      Int.floor (baseDelay * 2 ^ (k - 2) * (1/2 + rand * (1/2))) := by
    rw [Int.le_floor, hint]
    exact hlow
  calc baseDelay * 2 ^ (k - 2) * (1/2)
      = ((500 * 2 ^ (k - 2) : ℤ) : ℚ) := hint.symm
    _ ≤ (Int.floor (baseDelay * 2 ^ (k - 2) * (1/2 + rand * (1/2))) : ℚ) := by
        exact_mod_cast hfl

/-- C4 witness: the amended interval at the default `baseDelay = 1000`,
attempt `k = 2`, jitter draw `rand = 1/2`. -/
theorem backoff_delay_interval_witness :
    Int.floor ((1000 : ℚ) * 2 ^ (2 - 2) * (1/2)) ≤
      backoffDelay 1000 (2 - 1) (1/2) ∧
    (backoffDelay 1000 (2 - 1) (1/2) : ℚ) < 1000 * 2 ^ (2 - 2) * 1 ∧
    ((1000 : ℚ) = 1000 →
      (1000 : ℚ) * 2 ^ (2 - 2) * (1/2) ≤
        (backoffDelay 1000 (2 - 1) (1/2) : ℚ)) :=
  backoff_delay_interval 1000 2 (1/2) (by norm_num) (by norm_num)
    (by norm_num) (by norm_num)

/-- C10: the computed backoff delay (an integer, being `Math.floor` of the
real-valued product) is non-negative and no greater than the real-valued
product `baseDelay * 2^(retries-1) * jitterFactor`, for every positive
integer `baseDelay` and every jitter draw. -/
theorem backoff_delay_floor_bounds (base : Nat) (retries : Nat) (rand : ℚ)
    (hbase : 0 < base) (h0 : 0 ≤ rand) (h1 : rand < 1) :
    0 ≤ backoffDelay (base : ℚ) retries rand ∧
    (backoffDelay (base : ℚ) retries rand : ℚ) ≤
      (base : ℚ) * 2 ^ (retries - 1) * (1/2 + rand * (1/2)) := by
  unfold backoffDelay
  constructor
  · apply Int.le_floor.mpr
    have hhalf : (0:ℚ) ≤ 1/2 + rand * (1/2) := by linarith
    have hprod : (0:ℚ) ≤ (base : ℚ) * 2 ^ (retries - 1) * (1/2 + rand * (1/2)) :=
      mul_nonneg (mul_nonneg (Nat.cast_nonneg base) (by positivity)) hhalf
    exact_mod_cast hprod
  · exact Int.floor_le _

/-- C10 witness: `baseDelay = 1000`, `retries = 1`, jitter draw 1/2. -/
theorem backoff_delay_floor_bounds_witness :
    0 ≤ backoffDelay ((1000 : Nat) : ℚ) 1 (1/2) ∧
    (backoffDelay ((1000 : Nat) : ℚ) 1 (1/2) : ℚ) ≤
      ((1000 : Nat) : ℚ) * 2 ^ (1 - 1) * (1/2 + (1/2) * (1/2)) :=
  backoff_delay_floor_bounds 1000 1 (1/2) (by norm_num) (by norm_num)
    (by norm_num)

/-- Splitting a list by a Boolean predicate: the lengths of the two filter
results sum to the length of the list. -/
theorem length_filter_not_add_length_filter {α : Type} (p : α → Bool)
    (l : List α) :
    (l.filter fun a => !(p a)).length + (l.filter p).length = l.length := by
  induction l with
  | nil => rfl
  | cons a t ih => cases h : p a <;> simp [List.filter_cons, h] <;> omega

/-- Filtering a mapped list counts the sources whose image satisfies the
predicate. -/
theorem length_filter_of_map {α β : Type} (p : β → Bool) (f : α → β)
    (l : List α) :
    ((l.map f).filter p).length = (l.filter fun a => p (f a)).length := by
  induction l with
  | nil => rfl
  | cons a t ih => cases h : p (f a) <;> simp [List.filter_cons, h, ih]

/-- C5: in a batch in which exactly one member's delivery sequence fails
permanently, the summary reports `N - 1` successes and 1 failure, the
orchestrator returns it without any exception escaping, and every member's
terminal state is determined by its own attempt sequence alone (the
success count is exactly the number of members whose own sequence
succeeds). -/
theorem batch_single_failure_isolated (users : List AggUser)
    (attempts : AggUser → Nat → Except String Unit)
    (hfail : (users.filter fun u =>
        !(processBirthdayMessage (attempts u) defaultMaxRetries).isOk).length = 1) :
    checkBirthdaysBody users attempts =
      ⟨users.length, users.length - 1, 1⟩ ∧
    checkBirthdays (Except.ok users) attempts =
      Except.ok (CycleOutcome.summary ⟨users.length, users.length - 1, 1⟩) ∧
    (users.filter fun u =>
        (processBirthdayMessage (attempts u) defaultMaxRetries).isOk).length =
      users.length - 1 := by
  have hle : 1 ≤ users.length := by
    rw [← hfail]
    exact List.length_filter_le _ _
  have hsum := length_filter_not_add_length_filter
    (fun u => (processBirthdayMessage (attempts u) defaultMaxRetries).isOk) users
  have hok : (users.filter fun u =>
      (processBirthdayMessage (attempts u) defaultMaxRetries).isOk).length =
      users.length - 1 := by omega
  have hbody : checkBirthdaysBody users attempts =
      ⟨users.length, users.length - 1, 1⟩ := by
    have hne0 : ¬ users.length = 0 := by omega
    have hsucc : ((users.map fun u =>
        processBirthdayMessage (attempts u) defaultMaxRetries).filter fun r =>
          r.isOk).length = users.length - 1 := by
      rw [length_filter_of_map]
      exact hok
    have hfl : ((users.map fun u =>
        processBirthdayMessage (attempts u) defaultMaxRetries).filter fun r =>
          !r.isOk).length = 1 := by
      rw [length_filter_of_map]
      exact hfail
    unfold checkBirthdaysBody
    rw [if_neg hne0]
    exact congrArg₂ (CycleSummary.mk users.length) hsucc hfl
  refine ⟨hbody, ?_, hok⟩
  simp [checkBirthdays, hbody]

/-- C5 witness: a batch of three members where only member "B" fails
permanently yields the summary (matched 3, successful 2, failed 1) with no
escaping exception. -/
theorem batch_single_failure_isolated_witness :
    ([aggA, aggB, aggC].filter fun u =>
        !(processBirthdayMessage (attemptsFailB u) defaultMaxRetries).isOk).length = 1 ∧
    (checkBirthdaysBody [aggA, aggB, aggC] attemptsFailB = ⟨3, 2, 1⟩ ∧
     checkBirthdays (Except.ok [aggA, aggB, aggC]) attemptsFailB =
       Except.ok (CycleOutcome.summary ⟨3, 2, 1⟩) ∧
     ([aggA, aggB, aggC].filter fun u =>
        (processBirthdayMessage (attemptsFailB u) defaultMaxRetries).isOk).length = 2) :=
  ⟨by decide, batch_single_failure_isolated [aggA, aggB, aggC] attemptsFailB (by decide)⟩

/-- C6: the outer `try/catch` of `checkBirthdays` contains any failure of
the fetch (`findUsersWithBirthdayToday` rejecting): the method itself
never rejects — the rejected fetch is turned into a logged cycle-level
failure, and a cycle run with any other fetch outcome (such as the next
scheduled cycle) also completes without rejection. -/
theorem cycle_error_contained (attempts : AggUser → Nat → Except String Unit)
    (fetch fetchNext : Except String (List AggUser)) (e : String)
    (he : fetch = Except.error e) :
    checkBirthdays fetch attempts = Except.ok (CycleOutcome.cycleError e) ∧
    (checkBirthdays fetchNext attempts).isOk = true := by
  subst he
  refine ⟨rfl, ?_⟩
  cases fetchNext <;> rfl

/-- C6 witness: a rejecting fetch is contained, and the following cycle
with a fetch that resolves runs normally. -/
theorem cycle_error_contained_witness :
    checkBirthdays (Except.error "storage unavailable") attemptsFailB =
      Except.ok (CycleOutcome.cycleError "storage unavailable") ∧
    (checkBirthdays (Except.ok [aggA]) attemptsFailB).isOk = true :=
  cycle_error_contained attemptsFailB (Except.error "storage unavailable")
    (Except.ok [aggA]) "storage unavailable" rfl
